import Mathlib

/-!
Shallow embedding of the claim orchestration engine (src/claim.py, with the
address validation helpers it imports from src/positions.py).

Modelling conventions:
* Python floats are embedded as exact rationals (Rat); the claims under
  study concern sums and comparisons, not rounding.
* Python dict-shaped raw position records are embedded as a structure whose
  optional fields are Option values; Python truthiness of a string-valued
  field is captured by strTruthy (None and the empty string are falsy).
* External capabilities (Data API fetch, relayed gasless client, web3 chain
  client) are oracles bundled in environment structures; each capability
  fails only in the failure modes the source handles (PolymarketAPIError,
  RuntimeError for path unavailability, per-group exceptions).
* Stateful loops become explicit state-passing; the on-chain loop carries a
  ghost trace subs of the nonce values used at each raw-transaction
  submission, and the gasless loop carries a ghost trace calls of the
  arguments passed to each redeem invocation. The ghost fields are write-only
  instrumentation: they never influence the computed entries or nonce.
-/

/-- Result of attempting one settlement for one market identifier, or a
path-level note. Mirrors the dict entries built in src/claim.py. -/
inductive Mode
  | gasless
  | onchain
  | dataApi
deriving DecidableEq

/-- Error reasons carried by failure entries. The two fixed reason strings of
the source (gas-ceiling skip, receipt status not 1) are distinguished
constructors; stringified external exceptions are wrapped in exc. -/
inductive ErrReason
  | gasCeiling
  | statusFail
  | exc (msg : String)
deriving DecidableEq

/-- One success/failure record as appended to the success and failed lists in
src/claim.py (keys condition_id, mode, tx_hash, error, result). -/
structure Entry where
  condition_id : Option String
  mode : Mode
  tx_hash : Option String
  error : Option ErrReason
  result : Option String
deriving DecidableEq

/-- Typed claim-eligible position, mirroring the ClaimablePosition dataclass
of src/claim.py. -/
structure ClaimablePosition where
  market_question : String
  outcome : String
  quantity : Rat
  current_value : Rat
  condition_id : String
  asset : Option String
  negative_risk : Bool
  outcome_index : Option Int
deriving DecidableEq

/-- Compact summary dict produced by ClaimablePosition.to_summary_dict. -/
structure SummaryDict where
  market_question : String
  outcome : String
  quantity : Rat
  current_value : Rat
  condition_id : String
  asset : Option String
  negative_risk : Bool
  outcome_index : Option Int
deriving DecidableEq

def ClaimablePosition.to_summary_dict (p : ClaimablePosition) : SummaryDict :=
  { market_question := p.market_question
    outcome := p.outcome
    quantity := p.quantity
    current_value := p.current_value
    condition_id := p.condition_id
    asset := p.asset
    negative_risk := p.negative_risk
    outcome_index := p.outcome_index }

/-- A raw position record as returned by the Data API: a Python dict whose
fields may be absent or None. Field types follow the documented record shape
(src/positions.py); redeemable stores the Python truthiness of the stored
value. -/
structure RawRecord where
  market_question : String
  outcome : String
  quantity : Option Rat
  current_value : Option Rat
  condition_id : Option String
  conditionId : Option String
  asset : Option String
  redeemable : Bool
  negative_risk : Bool
  outcome_index : Option Int
deriving DecidableEq

/-- An element of the raw position list: the source skips entries that are
not dict instances, so the embedding distinguishes them. -/
inductive RawItem
  | notDict
  | dict (d : RawRecord)
deriving DecidableEq

/-- Python truthiness of an optional string value: None and the empty string
are falsy, every other string is truthy. -/
def strTruthy : Option String → Bool
  | none => false
  | some s => !(s == "")

/-- Python expression a or b over optional string values: yields a when a is
truthy, otherwise b. -/
def pyOrStr (a b : Option String) : Option String :=
  if strTruthy a then a else b

/-- Python expression float(x or 0.0) over an optional numeric field: an
absent or None value (and the falsy number 0) becomes 0. -/
def pyNumOr (x : Option Rat) : Rat :=
  match x with
  | none => 0
  | some v => if v = 0 then 0 else v

/-- ClaimablePosition.from_dict (src/claim.py lines 100-118): looks up
condition_id, falling back to conditionId via Python or, and raises
ValueError (embedded as Except.error) when the combined value is falsy. -/
def ClaimablePosition.from_dict (data : RawRecord) : Except Unit ClaimablePosition :=
  let condition_id := pyOrStr data.condition_id data.conditionId
  if strTruthy condition_id then
    Except.ok
      { market_question := data.market_question
        outcome := data.outcome
        quantity := pyNumOr data.quantity
        current_value := pyNumOr data.current_value
        condition_id := condition_id.getD ""
        asset := data.asset
        negative_risk := data.negative_risk
        outcome_index := data.outcome_index }
  else
    Except.error ()

/-- The per-record filtering loop of _collect_redeemable_positions
(src/claim.py lines 144-170): skip non-dict items, skip records whose
redeemable flag is falsy, skip records whose typed conversion raises, skip
converted positions with quantity <= 0; sum current_value over the kept
positions. -/
def _collect_redeemable_positions : List RawItem → List ClaimablePosition × Rat
  | [] => ([], 0)
  | item :: rest =>
    match item with
    | RawItem.notDict => _collect_redeemable_positions rest
    | RawItem.dict d =>
      if !d.redeemable then _collect_redeemable_positions rest
      else
        match ClaimablePosition.from_dict d with
        | Except.error _ => _collect_redeemable_positions rest
        | Except.ok pos =>
          if pos.quantity ≤ 0 then _collect_redeemable_positions rest
          else
            let r := _collect_redeemable_positions rest
            (pos :: r.1, pos.current_value + r.2)

/-- Specification-side description of the record filter used to state C2:
a record contributes exactly when it is a mapping, its redeemable flag is
truthy, typed conversion succeeds, and the converted quantity is positive. -/
def recordFilter : RawItem → Option ClaimablePosition
  | RawItem.notDict => none
  | RawItem.dict d =>
    if d.redeemable then
      match ClaimablePosition.from_dict d with
      | Except.ok p => if 0 < p.quantity then some p else none
      | Except.error _ => none
    else none

/-- Insert one position into the insertion-ordered grouped mapping, mirroring
grouped.setdefault(pos.condition_id, []).append(pos). -/
def groupInsert (acc : List (String × List ClaimablePosition)) (p : ClaimablePosition) :
    List (String × List ClaimablePosition) :=
  match acc with
  | [] => [(p.condition_id, [p])]
  | (k, l) :: rest =>
    if k = p.condition_id then (k, l ++ [p]) :: rest
    else (k, l) :: groupInsert rest p

/-- _group_by_condition (src/claim.py lines 173-179): a dict preserving key
insertion order, embedded as an association list. -/
def _group_by_condition (positions : List ClaimablePosition) :
    List (String × List ClaimablePosition) :=
  positions.foldl groupInsert []

/-- Whitespace characters stripped by the Python str.strip method. -/
def pyIsSpace (c : Char) : Bool :=
  c = ' ' || c = '\t' || c = '\n' || c = '\r' || c = '\x0b' || c = '\x0c'

/-- Python str.strip: drop whitespace from both ends. -/
def pyStrip (s : String) : String :=
  ⟨((s.data.dropWhile pyIsSpace).reverse.dropWhile pyIsSpace).reverse⟩

/-- Python str.lower (over the ASCII letters the addresses use). -/
def pyLower (s : String) : String :=
  ⟨s.data.map Char.toLower⟩

def listStartsWith : List Char → List Char → Bool
  | _, [] => true
  | [], _ :: _ => false
  | c :: cs, p :: ps => c = p && listStartsWith cs ps

/-- Python str.startswith. -/
def pyStartsWith (s pre : String) : Bool :=
  listStartsWith s.data pre.data

/-- Python len over a string (code points). -/
def pyLen (s : String) : Nat := s.data.length

/-- The Python slice s[n:]. -/
def pyDrop (s : String) (n : Nat) : String := ⟨s.data.drop n⟩

/-- _normalize_private_key (src/claim.py lines 135-141): strip, reject empty
(ValueError), ensure a 0x prefix. -/
def _normalize_private_key (private_key : String) : Except Unit String :=
  let pk := pyStrip private_key
  if pk = "" then Except.error ()
  else if !(pyStartsWith pk "0x") && !(pyStartsWith pk "0X") then Except.ok ("0x" ++ pk)
  else Except.ok pk

/-- _normalize_address (src/positions.py lines 63-75): strip, return the
empty string unchanged, ensure a 0x prefix, lowercase. -/
def _normalize_address (address : String) : String :=
  let addr := pyStrip address
  if addr = "" then addr
  else
    let addr2 := if !(pyStartsWith addr "0x") && !(pyStartsWith addr "0X") then "0x" ++ addr else addr
    pyLower addr2

/-- One hexadecimal digit as accepted by Python int(s, 16). -/
def hexDigit (c : Char) : Bool :=
  c.isDigit || (('a' ≤ c) && (c ≤ 'f')) || (('A' ≤ c) && (c ≤ 'F'))

/-- Hex digits after the first one, with single underscores allowed between
digits, as in Python numeric literals accepted by int(s, 16). -/
def hexTail : List Char → Bool
  | [] => true
  | '_' :: rest =>
    match rest with
    | [] => false
    | c :: rest2 => hexDigit c && hexTail rest2
  | c :: rest => hexDigit c && hexTail rest

/-- A nonempty run of hex digits with single interior underscores. -/
def hexDigits : List Char → Bool
  | [] => false
  | c :: rest => hexDigit c && hexTail rest

/-- Body of a base-16 Python int literal after the optional sign: an optional
0x or 0X marker (optionally followed by one underscore) and then digits. -/
def hexBody (l : List Char) : Bool :=
  match l with
  | '0' :: x :: rest =>
    if x = 'x' || x = 'X' then
      match rest with
      | '_' :: rest2 => hexDigits rest2
      | _ => hexDigits rest
    else hexDigits l
  | _ => hexDigits l

/-- Whether Python int(s, 16) succeeds on s: surrounding whitespace and one
optional sign are allowed around the hex body. -/
def pyIntHexOk (s : String) : Bool :=
  match (pyStrip s).data with
  | '+' :: rest => hexBody rest
  | '-' :: rest => hexBody rest
  | l => hexBody l

/-- is_valid_evm_address (src/positions.py lines 79-100): normalize, require
a 0x prefix, total length 42, and that int(tail, 16) succeeds. -/
def is_valid_evm_address (address : String) : Bool :=
  let addr := _normalize_address address
  if !(pyStartsWith addr "0x") then false
  else if !(pyLen addr = 42) then false
  else pyIntHexOk (pyDrop addr 2)

/-- Entry constructors mirroring the dict literals of src/claim.py. -/
def gaslessSuccessEntry (cid res : String) : Entry :=
  { condition_id := some cid, mode := Mode.gasless, tx_hash := none,
    error := none, result := some res }

def gaslessFailEntry (cid msg : String) : Entry :=
  { condition_id := some cid, mode := Mode.gasless, tx_hash := none,
    error := some (ErrReason.exc msg), result := none }

def syntheticGaslessEntry (msg : String) : Entry :=
  { condition_id := none, mode := Mode.gasless, tx_hash := none,
    error := some (ErrReason.exc msg), result := none }

def dataApiFailEntry (msg : String) : Entry :=
  { condition_id := none, mode := Mode.dataApi, tx_hash := none,
    error := some (ErrReason.exc msg), result := none }

def onchainAbortEntry (msg : String) : Entry :=
  { condition_id := none, mode := Mode.onchain, tx_hash := none,
    error := some (ErrReason.exc msg), result := none }

def gasCeilingEntry (cid : String) : Entry :=
  { condition_id := some cid, mode := Mode.onchain, tx_hash := none,
    error := some ErrReason.gasCeiling, result := none }

def onchainSuccessEntry (cid txh : String) : Entry :=
  { condition_id := some cid, mode := Mode.onchain, tx_hash := some txh,
    error := none, result := none }

def statusFailEntry (cid txh : String) : Entry :=
  { condition_id := some cid, mode := Mode.onchain, tx_hash := some txh,
    error := some ErrReason.statusFail, result := none }

def onchainExcEntry (cid msg : String) : Entry :=
  { condition_id := some cid, mode := Mode.onchain, tx_hash := none,
    error := some (ErrReason.exc msg), result := none }

/-- Abort of a settlement driver before its per-group loop: runtime carries a
RuntimeError message (path unavailability, caught by the orchestrator),
valueError models the ValueError from private-key normalization (not caught
by the orchestrator). -/
inductive PathAbort
  | runtime (msg : String)
  | valueError
deriving DecidableEq

/-- Per-outcome amount vector for one claim group (src/claim.py lines
241-249): a two-slot array indexed by outcome index, accumulating quantity
at indices 0 and 1 and ignoring other or missing indices. -/
def gaslessAmounts (positions : List ClaimablePosition) : Rat × Rat :=
  positions.foldl
    (fun a p =>
      match p.outcome_index with
      | none => a
      | some i =>
        if i = 0 then (a.1 + p.quantity, a.2)
        else if i = 1 then (a.1, a.2 + p.quantity)
        else a)
    (0, 0)

/-- Multi-outcome flag for one claim group: any(p.negative_risk). -/
def groupNegRisk (positions : List ClaimablePosition) : Bool :=
  positions.any (fun p => p.negative_risk)

/-- Oracle for the relayed gasless capability: importOk is whether the
optional dependency import succeeds, constructErr a RuntimeError raised while
building the client, redeem the per-group relayed settlement call (argument
order: market identifier, two-slot amounts array, multi-outcome flag). -/
structure GaslessEnv where
  importOk : Bool
  constructErr : Option String
  redeem : String → Rat × Rat → Bool → Except String String

/-- Output of the per-group gasless loop; calls is the ghost trace of the
arguments passed to each redeem invocation, in iteration order. -/
structure GaslessLoopOut where
  success : List Entry
  failed : List Entry
  calls : List (String × (Rat × Rat) × Bool)

/-- The per-group loop of _claim_via_gasless_builder (src/claim.py lines
240-274): one redeem call per group, recording a success entry with the
stringified result or a failure entry with the stringified exception. -/
def gaslessLoop (env : GaslessEnv) : List (String × List ClaimablePosition) → GaslessLoopOut
  | [] => { success := [], failed := [], calls := [] }
  | (cid, ps) :: rest =>
    let amounts := gaslessAmounts ps
    let neg_risk := groupNegRisk ps
    let tail := gaslessLoop env rest
    match env.redeem cid amounts neg_risk with
    | Except.ok res =>
      { success := gaslessSuccessEntry cid res :: tail.success,
        failed := tail.failed,
        calls := (cid, amounts, neg_risk) :: tail.calls }
    | Except.error msg =>
      { success := tail.success,
        failed := gaslessFailEntry cid msg :: tail.failed,
        calls := (cid, amounts, neg_risk) :: tail.calls }

/-- _claim_via_gasless_builder (src/claim.py lines 182-274): RuntimeError when
the optional dependency is missing, ValueError from private-key
normalization, RuntimeError from client construction, then the per-group
loop. -/
def _claim_via_gasless_builder (env : GaslessEnv) (private_key : String)
    (grouped : List (String × List ClaimablePosition)) :
    Except PathAbort (List Entry × List Entry) :=
  if !env.importOk then
    Except.error (PathAbort.runtime "polymarket-apis 未安装，无法使用 gasless/builder 路径。")
  else
    match _normalize_private_key private_key with
    | Except.error _ => Except.error PathAbort.valueError
    | Except.ok _ =>
      match env.constructErr with
      | some msg => Except.error (PathAbort.runtime msg)
      | none =>
        let r := gaslessLoop env grouped
        Except.ok (r.success, r.failed)

/-- Outcome of the transaction pipeline for one on-chain group once the gas
check has passed: preError is an exception raised anywhere before
send_raw_transaction returns (build, estimate fallback, sign, broadcast);
sent carries the transaction hash and what happens after submission. -/
inductive PostSubmit
  | confirmed
  | statusFail
  | waitErr (msg : String)
deriving DecidableEq

inductive TxAttempt
  | preError (msg : String)
  | sent (txh : String) (post : PostSubmit)
deriving DecidableEq

/-- Oracle for the web3 chain capability: availability of the import and the
connection, the initial transaction count, the gas price fetched at the i-th
group iteration (wei), and the transaction pipeline outcome for the i-th
group given its index set. -/
structure OnchainEnv where
  web3Available : Bool
  connected : Bool
  initNonce : Nat
  gasPrice : Nat → Nat
  attempt : Nat → List Nat → TxAttempt

/-- Insert into a sorted list of naturals, used to model sorted(index_sets). -/
def insertSorted (x : Nat) : List Nat → List Nat
  | [] => [x]
  | y :: ys => if x ≤ y then x :: y :: ys else y :: insertSorted x ys

def sortNats (l : List Nat) : List Nat := l.foldr insertSorted []

/-- The index-set construction of src/claim.py lines 329-339: the set of
1 <<< outcome_index over non-negative outcome indices, defaulting to the
binary-market set when empty, handed to the call site sorted. -/
def computeIndexSets (positions : List ClaimablePosition) : List Nat :=
  let s := positions.foldl
    (fun acc p =>
      match p.outcome_index with
      | none => acc
      | some i =>
        if 0 ≤ i then
          let v := 1 <<< i.toNat
          if acc.contains v then acc else acc ++ [v]
        else acc)
    []
  if s = [] then sortNats [1, 2] else sortNats s

/-- State of the on-chain per-group loop: the success and failed lists, the
nonce counter, and the ghost trace subs of the nonce values used at each raw
submission. -/
structure OnchainLoopState where
  success : List Entry
  failed : List Entry
  nonce : Nat
  subs : List Nat
deriving DecidableEq

/-- One iteration of the on-chain loop (src/claim.py lines 328-407): build the
index set, fetch the gas price, apply the ceiling admission check, then run
the transaction pipeline; the nonce is incremented exactly when the raw
transaction was submitted, and never afterwards decremented. -/
def onchainStep (env : OnchainEnv) (max_gas_price_gwei : Option Int) (idx : Nat)
    (st : OnchainLoopState) (cid : String) (positions : List ClaimablePosition) :
    OnchainLoopState :=
  let index_sets := computeIndexSets positions
  let gas_price := env.gasPrice idx
  let exceeded : Bool :=
    match max_gas_price_gwei with
    | some g => decide ((gas_price : Int) > g * 10 ^ 9)
    | none => false
  if exceeded then
    { st with failed := st.failed ++ [gasCeilingEntry cid] }
  else
    match env.attempt idx index_sets with
    | TxAttempt.preError msg =>
      { st with failed := st.failed ++ [onchainExcEntry cid msg] }
    | TxAttempt.sent txh post =>
      let st2 := { st with nonce := st.nonce + 1, subs := st.subs ++ [st.nonce] }
      match post with
      | PostSubmit.confirmed =>
        { st2 with success := st2.success ++ [onchainSuccessEntry cid txh] }
      | PostSubmit.statusFail =>
        { st2 with failed := st2.failed ++ [statusFailEntry cid txh] }
      | PostSubmit.waitErr msg =>
        { st2 with failed := st2.failed ++ [onchainExcEntry cid msg] }

def onchainLoop (env : OnchainEnv) (max_gas_price_gwei : Option Int) :
    List (String × List ClaimablePosition) → Nat → OnchainLoopState → OnchainLoopState
  | [], _, st => st
  | g :: rest, idx, st =>
    onchainLoop env max_gas_price_gwei rest (idx + 1)
      (onchainStep env max_gas_price_gwei idx st g.1 g.2)

/-- _claim_via_onchain_web3 (src/claim.py lines 277-409): RuntimeError when
web3 is missing, the RPC URL is empty, or the connection fails; ValueError
from private-key normalization; then one nonce counter initialised from the
transaction count and the per-group loop. -/
def _claim_via_onchain_web3 (env : OnchainEnv) (private_key : String)
    (grouped : List (String × List ClaimablePosition))
    (rpc_url : String) (max_gas_price_gwei : Option Int) :
    Except PathAbort (List Entry × List Entry) :=
  if !env.web3Available then
    Except.error (PathAbort.runtime "web3 未安装，无法使用链上回退模式。请安装 web3 或仅使用 gasless/builder 路径。")
  else if rpc_url = "" then
    Except.error (PathAbort.runtime "未提供 fallback_rpc_url，无法使用链上回退模式。")
  else if !env.connected then
    Except.error (PathAbort.runtime "无法连接到提供的 Polygon RPC 节点。")
  else
    match _normalize_private_key private_key with
    | Except.error _ => Except.error PathAbort.valueError
    | Except.ok _ =>
      let r := onchainLoop env max_gas_price_gwei grouped 0
        { success := [], failed := [], nonce := env.initNonce, subs := [] }
      Except.ok (r.success, r.failed)

/-- Exceptions that can escape claim_all_winnings in the embedded failure
model: InvalidAddressError and ValueError. -/
inductive PyError
  | invalidAddress (addr : String)
  | valueError (msg : String)
deriving DecidableEq

/-- The returned report: success, failed, total_amount always present, the
pending key present exactly when the dict literal carrying it is returned. -/
structure ClaimResult where
  success : List Entry
  failed : List Entry
  total_amount : Rat
  pending : Option (List SummaryDict)
deriving DecidableEq

/-- Oracle bundle for one orchestration run: the Data API fetch outcome and
the two settlement capabilities. -/
structure Env where
  fetch : Except String (List RawItem)
  gasless : GaslessEnv
  onchain : OnchainEnv

/-- Python truthiness of the optional fallback_rpc_url argument. -/
def optTruthy : Option String → Bool
  | none => false
  | some s => !(s == "")

/-- Lines 512-536 of src/claim.py: the optional on-chain fallback for the
residual groups, with the path-level RuntimeError converted to a summary
failure entry. -/
def onchainPart (env : Env) (private_key : String)
    (remaining_for_onchain : List (String × List ClaimablePosition))
    (fallback_rpc_url : Option String) (max_gas_price_gwei : Option Int) :
    Except PyError (List Entry × List Entry) :=
  if !remaining_for_onchain.isEmpty && optTruthy fallback_rpc_url then
    match _claim_via_onchain_web3 env.onchain private_key remaining_for_onchain
        (fallback_rpc_url.getD "") max_gas_price_gwei with
    | Except.ok r => Except.ok r
    | Except.error (PathAbort.runtime msg) => Except.ok ([], [onchainAbortEntry msg])
    | Except.error PathAbort.valueError => Except.error (PyError.valueError "私钥不能为空")
  else Except.ok ([], [])

/-- Lines 510-552 of src/claim.py: residual selection, the optional on-chain
fallback, the synthetic gasless-unavailability entry, and the final report. -/
def executeOnchainStage (env : Env) (private_key : String)
    (grouped : List (String × List ClaimablePosition))
    (gasless_success gasless_failed : List Entry) (gasless_error : Option String)
    (fallback_rpc_url : Option String) (max_gas_price_gwei : Option Int)
    (total_value : Rat) : Except PyError ClaimResult :=
  let handled_conditions := gasless_success.filterMap (fun e => e.condition_id)
  let remaining_for_onchain := grouped.filter (fun g => !(handled_conditions.contains g.1))
  match onchainPart env private_key remaining_for_onchain
      fallback_rpc_url max_gas_price_gwei with
  | Except.error e => Except.error e
  | Except.ok op =>
    let all_failed := gasless_failed ++ op.2
    let all_failed2 :=
      match gasless_error with
      | some msg => if gasless_failed = [] then all_failed ++ [syntheticGaslessEntry msg] else all_failed
      | none => all_failed
    Except.ok
      { success := gasless_success ++ op.1, failed := all_failed2,
        total_amount := total_value, pending := none }

/-- Lines 489-552 of src/claim.py: the execute-mode body, starting with the
relayed gasless attempt whose RuntimeError is caught and remembered. -/
def executeClaims (env : Env) (private_key : String)
    (grouped : List (String × List ClaimablePosition))
    (fallback_rpc_url : Option String) (max_gas_price_gwei : Option Int)
    (total_value : Rat) : Except PyError ClaimResult :=
  match _claim_via_gasless_builder env.gasless private_key grouped with
  | Except.error PathAbort.valueError => Except.error (PyError.valueError "私钥不能为空")
  | Except.error (PathAbort.runtime msg) =>
    executeOnchainStage env private_key grouped [] [] (some msg)
      fallback_rpc_url max_gas_price_gwei total_value
  | Except.ok r =>
    executeOnchainStage env private_key grouped r.1 r.2 none
      fallback_rpc_url max_gas_price_gwei total_value

/-- claim_all_winnings (src/claim.py lines 412-552): validate the address and
private key, fetch and filter positions (a data-source error becomes a
report), return the empty report when nothing is claimable, the dry-run
report when execution is disabled, and otherwise run the settlement paths. -/
def claim_all_winnings (env : Env) (private_key user_address : String)
    (dry_run : Bool) (fallback_rpc_url : Option String)
    (max_gas_price_gwei : Option Int) : Except PyError ClaimResult :=
  if is_valid_evm_address (_normalize_address user_address) then
    match _normalize_private_key private_key with
    | Except.error _ => Except.error (PyError.valueError "私钥不能为空")
    | Except.ok _ =>
      match env.fetch with
      | Except.error msg =>
        Except.ok { success := [], failed := [dataApiFailEntry msg],
                    total_amount := 0, pending := none }
      | Except.ok raw_positions =>
        let c := _collect_redeemable_positions raw_positions
        if c.1 = [] then
          Except.ok { success := [], failed := [], total_amount := 0, pending := none }
        else if dry_run then
          Except.ok { success := [], failed := [], total_amount := c.2,
                      pending := some (c.1.map ClaimablePosition.to_summary_dict) }
        else
          executeClaims env private_key (_group_by_condition c.1)
            fallback_rpc_url max_gas_price_gwei c.2
  else
    Except.error (PyError.invalidAddress user_address)

/-! Helper lemmas about the embedded definitions. -/

theorem normalize_pk_error_iff (pk : String) :
    _normalize_private_key pk = Except.error () ↔ pyStrip pk = "" := by
  unfold _normalize_private_key
  by_cases h : pyStrip pk = ""
  · simp [h]
  · simp only [h, if_false]
    split <;> simp

theorem normalize_pk_ok (pk : String) (h : pyStrip pk ≠ "") :
    ∃ s, _normalize_private_key pk = Except.ok s := by
  unfold _normalize_private_key
  simp [h]
  split <;> simp

theorem collect_eq_filterMap (raw : List RawItem) :
    _collect_redeemable_positions raw =
      (raw.filterMap recordFilter,
       ((raw.filterMap recordFilter).map (fun p => p.current_value)).sum) := by
  induction raw with
  | nil => simp [_collect_redeemable_positions]
  | cons item rest ih =>
    cases item with
    | notDict => simpa [_collect_redeemable_positions, recordFilter] using ih
    | dict d =>
      by_cases hr : d.redeemable
      · cases hfd : ClaimablePosition.from_dict d with
        | error e =>
          simpa [_collect_redeemable_positions, recordFilter, hr, hfd] using ih
        | ok pos =>
          by_cases hq : pos.quantity ≤ 0
          · have hq' : ¬ (0 < pos.quantity) := not_lt.mpr hq
            simpa [_collect_redeemable_positions, recordFilter, hr, hfd, hq, hq'] using ih
          · have hq' : 0 < pos.quantity := lt_of_not_le hq
            simp [_collect_redeemable_positions, recordFilter, hr, hfd, hq, hq', ih]
      · simpa [_collect_redeemable_positions, recordFilter, hr] using ih

theorem groupInsert_wellformed (p : ClaimablePosition)
    (acc : List (String × List ClaimablePosition))
    (h : ∀ g ∈ acc, g.2 ≠ [] ∧ ∀ q ∈ g.2, q.condition_id = g.1) :
    ∀ g ∈ groupInsert acc p, g.2 ≠ [] ∧ ∀ q ∈ g.2, q.condition_id = g.1 := by
  induction acc with
  | nil =>
    intro g hg
    simp [groupInsert] at hg
    subst hg
    simp
  | cons hd tl ih =>
    obtain ⟨k, l⟩ := hd
    have hhead := h (k, l) (List.mem_cons_self _ _)
    have htl : ∀ g ∈ tl, g.2 ≠ [] ∧ ∀ q ∈ g.2, q.condition_id = g.1 :=
      fun g hg => h g (List.mem_cons_of_mem _ hg)
    have hunf : groupInsert ((k, l) :: tl) p =
        if k = p.condition_id then (k, l ++ [p]) :: tl
        else (k, l) :: groupInsert tl p := rfl
    intro g hg
    rw [hunf] at hg
    by_cases hk : k = p.condition_id
    · rw [if_pos hk] at hg
      rcases List.mem_cons.mp hg with hg | hg
      · subst hg
        refine ⟨by simp, ?_⟩
        intro q hq
        rcases List.mem_append.mp hq with hq | hq
        · exact hhead.2 q hq
        · simp only [List.mem_singleton] at hq
          subst hq
          exact hk.symm
      · exact htl g hg
    · rw [if_neg hk] at hg
      rcases List.mem_cons.mp hg with hg | hg
      · subst hg
        exact hhead
      · exact ih htl g hg

theorem groupInsert_flatten_perm (p : ClaimablePosition)
    (acc : List (String × List ClaimablePosition)) :
    ((groupInsert acc p).map Prod.snd).flatten.Perm
      ((acc.map Prod.snd).flatten ++ [p]) := by
  induction acc with
  | nil => simp [groupInsert]
  | cons hd tl ih =>
    obtain ⟨k, l⟩ := hd
    by_cases hk : k = p.condition_id
    · have hunf : groupInsert ((k, l) :: tl) p = (k, l ++ [p]) :: tl := by
        simp [groupInsert, hk]
      rw [hunf]
      simp only [List.map_cons, List.flatten_cons, List.append_assoc]
      exact List.Perm.append_left l List.perm_append_comm
    · simp only [groupInsert, hk, if_false, List.map_cons, List.flatten_cons]
      have := List.Perm.append_left l ih
      refine this.trans ?_
      simp [List.append_assoc]

theorem groupInsert_keys (p : ClaimablePosition)
    (acc : List (String × List ClaimablePosition)) :
    (groupInsert acc p).map Prod.fst =
      (if p.condition_id ∈ acc.map Prod.fst then acc.map Prod.fst
       else acc.map Prod.fst ++ [p.condition_id]) := by
  induction acc with
  | nil => simp [groupInsert]
  | cons hd tl ih =>
    obtain ⟨k, l⟩ := hd
    by_cases hk : k = p.condition_id
    · simp [groupInsert, hk]
    · have hk' : ¬ p.condition_id = k := fun hh => hk hh.symm
      by_cases hmem : p.condition_id ∈ tl.map Prod.fst
      · simp [groupInsert, hk, hk', hmem, ih]
      · simp [groupInsert, hk, hk', hmem, ih]

theorem groupInsert_keys_nodup (p : ClaimablePosition)
    (acc : List (String × List ClaimablePosition))
    (h : (acc.map Prod.fst).Nodup) :
    ((groupInsert acc p).map Prod.fst).Nodup := by
  rw [groupInsert_keys]
  by_cases hmem : p.condition_id ∈ acc.map Prod.fst
  · simpa [hmem] using h
  · simp only [hmem, if_false]
    rw [List.nodup_append]
    refine ⟨h, List.nodup_singleton _, fun a ha hb => ?_⟩
    simp only [List.mem_singleton] at hb
    subst hb
    exact hmem ha

theorem group_foldl_wellformed (ps : List ClaimablePosition) :
    ∀ acc, (∀ g ∈ acc, g.2 ≠ [] ∧ ∀ q ∈ g.2, q.condition_id = g.1) →
      ∀ g ∈ ps.foldl groupInsert acc, g.2 ≠ [] ∧ ∀ q ∈ g.2, q.condition_id = g.1 := by
  induction ps with
  | nil => intro acc hacc; simpa using hacc
  | cons p rest ih =>
    intro acc hacc
    simpa using ih (groupInsert acc p) (groupInsert_wellformed p acc hacc)

theorem group_foldl_keys_nodup (ps : List ClaimablePosition) :
    ∀ acc, (acc.map Prod.fst).Nodup → ((ps.foldl groupInsert acc).map Prod.fst).Nodup := by
  induction ps with
  | nil => intro acc hacc; simpa using hacc
  | cons p rest ih =>
    intro acc hacc
    simpa using ih (groupInsert acc p) (groupInsert_keys_nodup p acc hacc)

theorem group_foldl_flatten_perm (ps : List ClaimablePosition) :
    ∀ acc, ((ps.foldl groupInsert acc).map Prod.snd).flatten.Perm
      ((acc.map Prod.snd).flatten ++ ps) := by
  induction ps with
  | nil => intro acc; simp
  | cons p rest ih =>
    intro acc
    have h1 := ih (groupInsert acc p)
    have h2 := List.Perm.append_right rest (groupInsert_flatten_perm p acc)
    have h3 : ((acc.map Prod.snd).flatten ++ [p]) ++ rest =
        (acc.map Prod.snd).flatten ++ (p :: rest) := by simp
    simp only [List.foldl_cons]
    exact h1.trans (h3 ▸ h2)

/-- C8: the grouping step is a strict partition of the filtered positions:
every group is nonempty, every member of a group has the group key as its
market identifier, group keys are pairwise distinct, and the concatenation
of all group lists is a permutation of (hence equal as a multiset to) the
input list. -/
theorem C8_grouping_partition (ps : List ClaimablePosition) :
    (∀ g ∈ _group_by_condition ps, g.2 ≠ [] ∧ ∀ q ∈ g.2, q.condition_id = g.1)
    ∧ ((_group_by_condition ps).map Prod.snd).flatten.Perm ps
    ∧ ((_group_by_condition ps).map Prod.fst).Nodup := by
  refine ⟨group_foldl_wellformed ps [] (by simp), ?_, group_foldl_keys_nodup ps [] (by simp)⟩
  simpa using group_foldl_flatten_perm ps []

def samplePosA : ClaimablePosition :=
  { market_question := "q1", outcome := "Yes", quantity := 3, current_value := 3,
    condition_id := "M1", asset := none, negative_risk := false, outcome_index := some 0 }

def samplePosB : ClaimablePosition :=
  { market_question := "q1", outcome := "No", quantity := 4, current_value := 4,
    condition_id := "M1", asset := none, negative_risk := true, outcome_index := some 1 }

def samplePosC : ClaimablePosition :=
  { market_question := "q2", outcome := "Yes", quantity := 5, current_value := 2,
    condition_id := "M2", asset := none, negative_risk := false, outcome_index := some 0 }

/-- Witness for C8 at a concrete three-position, two-market input. -/
theorem C8_grouping_partition_witness :
    (∀ g ∈ _group_by_condition [samplePosA, samplePosB, samplePosC],
      g.2 ≠ [] ∧ ∀ q ∈ g.2, q.condition_id = g.1)
    ∧ ((_group_by_condition [samplePosA, samplePosB, samplePosC]).map Prod.snd).flatten.Perm
        [samplePosA, samplePosB, samplePosC]
    ∧ ((_group_by_condition [samplePosA, samplePosB, samplePosC]).map Prod.fst).Nodup :=
  C8_grouping_partition [samplePosA, samplePosB, samplePosC]
/-- Unfolded form of the typed conversion, for case analysis. -/
theorem from_dict_eq (d : RawRecord) :
    ClaimablePosition.from_dict d =
      (if strTruthy (pyOrStr d.condition_id d.conditionId) then
        Except.ok
          { market_question := d.market_question
            outcome := d.outcome
            quantity := pyNumOr d.quantity
            current_value := pyNumOr d.current_value
            condition_id := (pyOrStr d.condition_id d.conditionId).getD ""
            asset := d.asset
            negative_risk := d.negative_risk
            outcome_index := d.outcome_index }
      else Except.error ()) := rfl

/-- C10: the typed conversion raises exactly when the record's market
identifier (condition_id with conditionId as fallback, combined by Python or)
is absent, None, or empty (falsy); every constructed position therefore has a
nonempty market identifier, and the Claim Group Builder skips a record with a
falsy identifier exactly as it skips the rest of the list. The numeric fields
are embedded at their documented record types, so conversion can fail only on
the identifier check, as in the source. -/
theorem C10_from_dict_condition (d : RawRecord) :
    ((∃ e, ClaimablePosition.from_dict d = Except.error e)
      ↔ strTruthy (pyOrStr d.condition_id d.conditionId) = false)
    ∧ (∀ p, ClaimablePosition.from_dict d = Except.ok p → p.condition_id ≠ "")
    ∧ (∀ rest, strTruthy (pyOrStr d.condition_id d.conditionId) = false →
        _collect_redeemable_positions (RawItem.dict d :: rest) =
          _collect_redeemable_positions rest) := by
  refine ⟨?_, ?_, ?_⟩
  · rw [from_dict_eq]
    by_cases h : strTruthy (pyOrStr d.condition_id d.conditionId)
    · simp [h]
    · simp [h]
  · intro p hp
    rw [from_dict_eq] at hp
    by_cases h : strTruthy (pyOrStr d.condition_id d.conditionId)
    · rw [if_pos (by simp [h])] at hp
      injection hp with h2
      rw [← h2]
      cases ho : pyOrStr d.condition_id d.conditionId with
      | none =>
        rw [ho] at h
        simp [strTruthy] at h
      | some s =>
        rw [ho] at h
        simp only [strTruthy] at h
        have hs : s ≠ "" := by
          intro hh
          rw [hh] at h
          simp at h
        simpa [ho] using hs
    · rw [if_neg (by simp [h])] at hp
      exact absurd hp (by simp)
  · intro rest hfalse
    have herr : ClaimablePosition.from_dict d = Except.error () := by
      rw [from_dict_eq, if_neg (by simp [hfalse])]
    by_cases hr : d.redeemable
    · simp [_collect_redeemable_positions, hr, herr]
    · simp [_collect_redeemable_positions, hr]

/-- A record whose market identifier is present but the empty string. -/
def recEmptyCid : RawRecord :=
  { market_question := "q", outcome := "Yes", quantity := some 2, current_value := some 5,
    condition_id := some "", conditionId := none, asset := none, redeemable := true,
    negative_risk := false, outcome_index := some 0 }

/-- Witness for C10: the empty-string identifier makes conversion raise and
the builder skip the record. -/
theorem C10_from_dict_condition_witness :
    (∃ e, ClaimablePosition.from_dict recEmptyCid = Except.error e)
    ∧ _collect_redeemable_positions [RawItem.dict recEmptyCid] =
        _collect_redeemable_positions [] :=
  ⟨(C10_from_dict_condition recEmptyCid).1.mpr (by decide),
   (C10_from_dict_condition recEmptyCid).2.2 [] (by decide)⟩

theorem gaslessAmounts_foldl (ps : List ClaimablePosition) :
    ∀ a : Rat × Rat,
      ps.foldl
        (fun a p =>
          match p.outcome_index with
          | none => a
          | some i =>
            if i = 0 then (a.1 + p.quantity, a.2)
            else if i = 1 then (a.1, a.2 + p.quantity)
            else a) a =
      (a.1 + ((ps.filter (fun p => decide (p.outcome_index = some 0))).map
          (fun p => p.quantity)).sum,
       a.2 + ((ps.filter (fun p => decide (p.outcome_index = some 1))).map
          (fun p => p.quantity)).sum) := by
  induction ps with
  | nil => intro a; simp
  | cons p rest ih =>
    intro a
    cases hoi : p.outcome_index with
    | none => simp [List.foldl_cons, List.filter_cons, hoi, ih]
    | some i =>
      by_cases h0 : i = 0
      · subst h0
        simp [List.foldl_cons, List.filter_cons, hoi, ih, add_assoc]
      · by_cases h1 : i = 1
        · subst h1
          simp [List.foldl_cons, List.filter_cons, hoi, h0, ih, add_assoc]
        · simp [List.foldl_cons, List.filter_cons, hoi, h0, h1, ih]

theorem gaslessLoop_calls (env : GaslessEnv)
    (grouped : List (String × List ClaimablePosition)) :
    (gaslessLoop env grouped).calls =
      grouped.map (fun g => (g.1, gaslessAmounts g.2, groupNegRisk g.2)) := by
  induction grouped with
  | nil => rfl
  | cons g rest ih =>
    obtain ⟨cid, ps⟩ := g
    cases hr : env.redeem cid (gaslessAmounts ps) (groupNegRisk ps) <;>
      simp [gaslessLoop, hr, ih]

/-- C9: for every claim group handed to the relayed driver, the redeem call
receives a two-slot amount vector whose entry at outcome index 0 and 1 is the
sum of the quantities of the member positions with that outcome index, and a
multi-outcome flag equal to the logical OR of the member flags; the ghost
call trace of the per-group loop shows exactly these arguments are passed for
every group. -/
theorem C9_gasless_amounts :
    (∀ ps : List ClaimablePosition,
      (gaslessAmounts ps).1 =
        ((ps.filter (fun p => decide (p.outcome_index = some 0))).map
          (fun p => p.quantity)).sum
      ∧ (gaslessAmounts ps).2 =
        ((ps.filter (fun p => decide (p.outcome_index = some 1))).map
          (fun p => p.quantity)).sum
      ∧ (groupNegRisk ps = true ↔ ∃ p ∈ ps, p.negative_risk = true))
    ∧ (∀ (env : GaslessEnv) (grouped : List (String × List ClaimablePosition)),
        (gaslessLoop env grouped).calls =
          grouped.map (fun g => (g.1, gaslessAmounts g.2, groupNegRisk g.2))) := by
  refine ⟨fun ps => ?_, gaslessLoop_calls⟩
  have h := gaslessAmounts_foldl ps (0, 0)
  refine ⟨?_, ?_, ?_⟩
  · rw [gaslessAmounts, h]
    simp
  · rw [gaslessAmounts, h]
    simp
  · unfold groupNegRisk
    exact List.any_eq_true

/-- Witness for C9 at a concrete two-position group with colliding and
distinct indices. -/
theorem C9_gasless_amounts_witness :
    (gaslessAmounts [samplePosA, samplePosB]).1 =
      (([samplePosA, samplePosB].filter
        (fun p => decide (p.outcome_index = some 0))).map (fun p => p.quantity)).sum
    ∧ (groupNegRisk [samplePosA, samplePosB] = true
        ↔ ∃ p ∈ [samplePosA, samplePosB], p.negative_risk = true) :=
  ⟨(C9_gasless_amounts.1 [samplePosA, samplePosB]).1,
   (C9_gasless_amounts.1 [samplePosA, samplePosB]).2.2⟩

/-- The on-chain loop started in the initial state of the driver: empty
entry lists and the fetched transaction count. -/
def onchainRun (env : OnchainEnv) (max_gas_price_gwei : Option Int)
    (grouped : List (String × List ClaimablePosition)) : OnchainLoopState :=
  onchainLoop env max_gas_price_gwei grouped 0
    { success := [], failed := [], nonce := env.initNonce, subs := [] }

theorem onchain_driver_run (env : OnchainEnv) (pk : String)
    (grouped : List (String × List ClaimablePosition)) (rpc : String)
    (maxG : Option Int) (hw : env.web3Available = true) (hr : rpc ≠ "")
    (hc : env.connected = true) (hpk : pyStrip pk ≠ "") :
    _claim_via_onchain_web3 env pk grouped rpc maxG =
      Except.ok ((onchainRun env maxG grouped).success,
                 (onchainRun env maxG grouped).failed) := by
  obtain ⟨s, hs⟩ := normalize_pk_ok pk hpk
  simp [_claim_via_onchain_web3, hw, hr, hc, hs, onchainRun]

/-- C3: with a supplied ceiling G (gwei) and the gas price P (wei) fetched at
this iteration, the group is recorded as failed with the distinguished
ceiling-exceeded reason, with no transaction pipeline consulted and the
nonce counter and submission trace unchanged, exactly when P > G * 10^9;
when P <= G * 10^9 no ceiling-reason failure is added for this group. -/
theorem C3_gas_admission (env : OnchainEnv) (g : Int) (idx : Nat)
    (st : OnchainLoopState) (cid : String) (ps : List ClaimablePosition) :
    ((g * 10 ^ 9 < (env.gasPrice idx : Int)) →
      onchainStep env (some g) idx st cid ps =
        { st with failed := st.failed ++ [gasCeilingEntry cid] })
    ∧ (((env.gasPrice idx : Int) ≤ g * 10 ^ 9) →
      ∀ e ∈ (onchainStep env (some g) idx st cid ps).failed,
        e ∈ st.failed ∨ e.error ≠ some ErrReason.gasCeiling) := by
  constructor
  · intro h
    have hd : decide ((env.gasPrice idx : Int) > g * 10 ^ 9) = true := decide_eq_true h
    simp [onchainStep, hd]
    intro hle
    exfalso
    norm_num at h
    exact absurd h (not_lt.mpr hle)
  · intro h
    have hd : decide ((env.gasPrice idx : Int) > g * 10 ^ 9) = false :=
      decide_eq_false (not_lt.mpr h)
    intro e he
    simp only [onchainStep, hd, Bool.false_eq_true, if_false] at he
    cases hat : env.attempt idx (computeIndexSets ps) with
    | preError msg =>
      rw [hat] at he
      simp only [List.mem_append, List.mem_singleton] at he
      rcases he with he | he
      · exact Or.inl he
      · subst he
        right
        simp [onchainExcEntry]
    | sent txh post =>
      rw [hat] at he
      cases post with
      | confirmed =>
        simp only [] at he
        exact Or.inl he
      | statusFail =>
        simp only [List.mem_append, List.mem_singleton] at he
        rcases he with he | he
        · exact Or.inl he
        · subst he
          right
          simp [statusFailEntry]
      | waitErr msg =>
        simp only [List.mem_append, List.mem_singleton] at he
        rcases he with he | he
        · exact Or.inl he
        · subst he
          right
          simp [onchainExcEntry]

/-- A chain oracle whose gas price is 30 gwei and whose pipeline always
confirms. -/
def sampleOnchain : OnchainEnv :=
  { web3Available := true, connected := true, initNonce := 7,
    gasPrice := fun _ => 30000000000,
    attempt := fun _ _ => TxAttempt.sent "0xh" PostSubmit.confirmed }

def sampleLoopState : OnchainLoopState :=
  { success := [], failed := [], nonce := 7, subs := [] }

/-- Witness for C3: a 25 gwei ceiling against a 30 gwei price skips the group
with the ceiling reason and leaves the state otherwise unchanged. -/
theorem C3_gas_admission_witness :
    onchainStep sampleOnchain (some 25) 0 sampleLoopState "M1" [] =
      { sampleLoopState with
          failed := sampleLoopState.failed ++ [gasCeilingEntry "M1"] } :=
  (C3_gas_admission sampleOnchain 25 0 sampleLoopState "M1" []).1 (by decide)

theorem onchainStep_nonce_subs (env : OnchainEnv) (maxG : Option Int) (idx : Nat)
    (st : OnchainLoopState) (cid : String) (ps : List ClaimablePosition) (i : Nat)
    (h1 : st.subs = List.range' i st.subs.length)
    (h2 : st.nonce = i + st.subs.length) :
    (onchainStep env maxG idx st cid ps).subs =
      List.range' i (onchainStep env maxG idx st cid ps).subs.length
    ∧ (onchainStep env maxG idx st cid ps).nonce =
      i + (onchainStep env maxG idx st cid ps).subs.length := by
  have hconc : st.subs ++ [i + st.subs.length] =
      List.range' i (st.subs.length + 1) := by
    rw [List.range'_concat, ← h1]
    simp
  simp only [onchainStep]
  split
  · exact ⟨h1, h2⟩
  · split
    · exact ⟨h1, h2⟩
    · rename_i txh post _
      cases post <;>
        simp only [] <;>
        refine ⟨?_, ?_⟩ <;>
        simp [hconc, h2, Nat.add_assoc]

theorem onchainLoop_nonce_subs (env : OnchainEnv) (maxG : Option Int) :
    ∀ (grouped : List (String × List ClaimablePosition)) (idx : Nat)
      (st : OnchainLoopState) (i : Nat),
      st.subs = List.range' i st.subs.length → st.nonce = i + st.subs.length →
      (onchainLoop env maxG grouped idx st).subs =
        List.range' i (onchainLoop env maxG grouped idx st).subs.length
      ∧ (onchainLoop env maxG grouped idx st).nonce =
        i + (onchainLoop env maxG grouped idx st).subs.length := by
  intro grouped
  induction grouped with
  | nil => intro idx st i h1 h2; exact ⟨h1, h2⟩
  | cons g rest ih =>
    intro idx st i h1 h2
    have hstep := onchainStep_nonce_subs env maxG idx st g.1 g.2 i h1 h2
    simpa only [onchainLoop] using
      ih (idx + 1) (onchainStep env maxG idx st g.1 g.2) i hstep.1 hstep.2

/-- C4: within one driver invocation, the ghost submission trace equals the
contiguous range starting at the initial transaction count: the k-th
submitted transaction uses nonce initialNonce + k, no nonce is used twice,
and the final counter is the initial count plus the number of submissions —
so the counter moves exactly on submission (not on pre-submission
exceptions) and is never rolled back on a failed receipt status. -/
theorem C4_nonce_monotonic (env : OnchainEnv) (maxG : Option Int)
    (grouped : List (String × List ClaimablePosition)) :
    (onchainRun env maxG grouped).subs =
      List.range' env.initNonce (onchainRun env maxG grouped).subs.length
    ∧ (onchainRun env maxG grouped).nonce =
      env.initNonce + (onchainRun env maxG grouped).subs.length
    ∧ (onchainRun env maxG grouped).subs.Nodup
    ∧ ∀ (k : Nat) (hk : k < (onchainRun env maxG grouped).subs.length),
        (onchainRun env maxG grouped).subs.get ⟨k, hk⟩ = env.initNonce + k := by
  have h := onchainLoop_nonce_subs env maxG grouped 0
    { success := [], failed := [], nonce := env.initNonce, subs := [] }
    env.initNonce (by simp) (by simp)
  rw [onchainRun]
  refine ⟨h.1, h.2, ?_, ?_⟩
  · rw [h.1]
    exact List.nodup_range' _ _ _
  · intro k hk
    simp only [List.get_eq_getElem]
    have hk2 : k < (List.range' env.initNonce
        ((onchainLoop env maxG grouped 0
          { success := [], failed := [], nonce := env.initNonce, subs := [] }).subs.length)).length := by
      simpa using hk
    rw [List.getElem_of_eq h.1]
    exact List.getElem_range'_1 k hk2

/-- Witness for C4 at two groups and an always-confirming pipeline: nonces 7
then 8 are used. -/
theorem C4_nonce_monotonic_witness :
    (onchainRun sampleOnchain none [("M1", []), ("M2", [])]).subs =
      List.range' sampleOnchain.initNonce
        (onchainRun sampleOnchain none [("M1", []), ("M2", [])]).subs.length
    ∧ (onchainRun sampleOnchain none [("M1", []), ("M2", [])]).nonce =
      sampleOnchain.initNonce +
        (onchainRun sampleOnchain none [("M1", []), ("M2", [])]).subs.length
    ∧ (onchainRun sampleOnchain none [("M1", []), ("M2", [])]).subs.Nodup
    ∧ (onchainRun sampleOnchain none [("M1", []), ("M2", [])]).subs.get
        ⟨0, by decide⟩ = sampleOnchain.initNonce + 0 :=
  ⟨(C4_nonce_monotonic sampleOnchain none [("M1", []), ("M2", [])]).1,
   (C4_nonce_monotonic sampleOnchain none [("M1", []), ("M2", [])]).2.1,
   (C4_nonce_monotonic sampleOnchain none [("M1", []), ("M2", [])]).2.2.1,
   (C4_nonce_monotonic sampleOnchain none [("M1", []), ("M2", [])]).2.2.2 0 (by decide)⟩

theorem gaslessLoop_entries_cid (env : GaslessEnv)
    (grouped : List (String × List ClaimablePosition)) :
    (∀ e ∈ (gaslessLoop env grouped).success, e.condition_id.isSome = true)
    ∧ (∀ e ∈ (gaslessLoop env grouped).failed, e.condition_id.isSome = true) := by
  induction grouped with
  | nil => simp [gaslessLoop]
  | cons g rest ih =>
    obtain ⟨cid, ps⟩ := g
    cases hr : env.redeem cid (gaslessAmounts ps) (groupNegRisk ps) with
    | ok res =>
      constructor
      · intro e he
        simp only [gaslessLoop, hr, List.mem_cons] at he
        rcases he with he | he
        · subst he; rfl
        · exact ih.1 e he
      · intro e he
        simp only [gaslessLoop, hr] at he
        exact ih.2 e he
    | error msg =>
      constructor
      · intro e he
        simp only [gaslessLoop, hr] at he
        exact ih.1 e he
      · intro e he
        simp only [gaslessLoop, hr, List.mem_cons] at he
        rcases he with he | he
        · subst he; rfl
        · exact ih.2 e he

theorem onchainStep_entries_cid (env : OnchainEnv) (maxG : Option Int)
    (idx : Nat) (st : OnchainLoopState) (cid : String)
    (ps : List ClaimablePosition) :
    (∀ e ∈ (onchainStep env maxG idx st cid ps).success,
      e ∈ st.success ∨ e.condition_id.isSome = true)
    ∧ (∀ e ∈ (onchainStep env maxG idx st cid ps).failed,
      e ∈ st.failed ∨ e.condition_id.isSome = true) := by
  simp only [onchainStep]
  split
  · constructor
    · intro e he; exact Or.inl he
    · intro e he
      simp only [List.mem_append, List.mem_singleton] at he
      rcases he with he | he
      · exact Or.inl he
      · subst he; right; rfl
  · split
    · constructor
      · intro e he; exact Or.inl he
      · intro e he
        simp only [List.mem_append, List.mem_singleton] at he
        rcases he with he | he
        · exact Or.inl he
        · subst he; right; rfl
    · rename_i txh post _
      cases post with
      | confirmed =>
        constructor
        · intro e he
          simp only [List.mem_append, List.mem_singleton] at he
          rcases he with he | he
          · exact Or.inl he
          · subst he; right; rfl
        · intro e he; exact Or.inl he
      | statusFail =>
        constructor
        · intro e he; exact Or.inl he
        · intro e he
          simp only [List.mem_append, List.mem_singleton] at he
          rcases he with he | he
          · exact Or.inl he
          · subst he; right; rfl
      | waitErr msg =>
        constructor
        · intro e he; exact Or.inl he
        · intro e he
          simp only [List.mem_append, List.mem_singleton] at he
          rcases he with he | he
          · exact Or.inl he
          · subst he; right; rfl

theorem onchainLoop_entries_cid (env : OnchainEnv) (maxG : Option Int) :
    ∀ (grouped : List (String × List ClaimablePosition)) (idx : Nat)
      (st : OnchainLoopState),
      (∀ e ∈ (onchainLoop env maxG grouped idx st).success,
        e ∈ st.success ∨ e.condition_id.isSome = true)
      ∧ (∀ e ∈ (onchainLoop env maxG grouped idx st).failed,
        e ∈ st.failed ∨ e.condition_id.isSome = true) := by
  intro grouped
  induction grouped with
  | nil => intro idx st; exact ⟨fun e he => Or.inl he, fun e he => Or.inl he⟩
  | cons g rest ih =>
    intro idx st
    have hstep := onchainStep_entries_cid env maxG idx st g.1 g.2
    have hrec := ih (idx + 1) (onchainStep env maxG idx st g.1 g.2)
    constructor
    · intro e he
      simp only [onchainLoop] at he
      rcases hrec.1 e he with h | h
      · exact hstep.1 e h
      · exact Or.inr h
    · intro e he
      simp only [onchainLoop] at he
      rcases hrec.2 e he with h | h
      · exact hstep.2 e h
      · exact Or.inr h

theorem onchain_driver_not_valueError (env : OnchainEnv) (pk : String)
    (grouped : List (String × List ClaimablePosition)) (rpc : String)
    (maxG : Option Int) (hpk : pyStrip pk ≠ "") :
    _claim_via_onchain_web3 env pk grouped rpc maxG ≠
      Except.error PathAbort.valueError := by
  obtain ⟨s, hs⟩ := normalize_pk_ok pk hpk
  unfold _claim_via_onchain_web3
  cases hw : env.web3Available
  · simp [hw]
  · by_cases hr0 : rpc = ""
    · simp [hw, hr0]
    · cases hc : env.connected
      · simp [hw, hr0, hc]
      · simp [hw, hr0, hc, hs]

theorem onchain_driver_ok_entries (env : OnchainEnv) (pk : String)
    (grouped : List (String × List ClaimablePosition)) (rpc : String)
    (maxG : Option Int) (r : List Entry × List Entry)
    (h : _claim_via_onchain_web3 env pk grouped rpc maxG = Except.ok r) :
    (∀ e ∈ r.1, e.condition_id.isSome = true)
    ∧ (∀ e ∈ r.2, e.condition_id.isSome = true) := by
  unfold _claim_via_onchain_web3 at h
  cases hw : env.web3Available
  · simp [hw] at h
  · by_cases hr0 : rpc = ""
    · simp [hw, hr0] at h
    · cases hc : env.connected
      · simp [hw, hr0, hc] at h
      · cases hn : _normalize_private_key pk with
        | error e => simp [hw, hr0, hc, hn] at h
        | ok s =>
          simp only [hw, hr0, hc, hn, Bool.not_true, Bool.false_eq_true,
            if_false, if_neg, Except.ok.injEq] at h
          have hloop := onchainLoop_entries_cid env maxG grouped 0
            { success := [], failed := [], nonce := env.initNonce, subs := [] }
          constructor
          · intro e he
            rw [← h] at he
            rcases hloop.1 e he with hcontra | hgood
            · simp at hcontra
            · exact hgood
          · intro e he
            rw [← h] at he
            rcases hloop.2 e he with hcontra | hgood
            · simp at hcontra
            · exact hgood

theorem onchainPart_spec (env : Env) (pk : String)
    (remaining : List (String × List ClaimablePosition))
    (rpc : Option String) (maxG : Option Int) (hpk : pyStrip pk ≠ "") :
    ∃ os of2, onchainPart env pk remaining rpc maxG = Except.ok (os, of2)
      ∧ (∀ e ∈ os, e.condition_id.isSome = true)
      ∧ (∀ e ∈ of2, e.condition_id.isSome = true ∨ e.mode = Mode.onchain) := by
  unfold onchainPart
  split
  · cases hdrv : _claim_via_onchain_web3 env.onchain pk remaining (rpc.getD "") maxG with
    | ok r =>
      have hent := onchain_driver_ok_entries env.onchain pk remaining (rpc.getD "") maxG r hdrv
      exact ⟨r.1, r.2, rfl, fun e he => hent.1 e he,
        fun e he => Or.inl (hent.2 e he)⟩
    | error pa =>
      cases pa with
      | runtime msg =>
        refine ⟨[], [onchainAbortEntry msg], rfl, by simp, ?_⟩
        intro e he
        simp only [List.mem_singleton] at he
        subst he
        right
        rfl
      | valueError =>
        exact absurd hdrv
          (onchain_driver_not_valueError env.onchain pk remaining (rpc.getD "") maxG hpk)
  · exact ⟨[], [], rfl, by simp, by simp⟩

theorem executeOnchainStage_spec (env : Env) (pk : String)
    (grouped : List (String × List ClaimablePosition))
    (gs gf : List Entry) (gerr : Option String)
    (rpc : Option String) (maxG : Option Int) (tv : Rat)
    (hpk : pyStrip pk ≠ "") :
    ∃ os of2 syn,
      executeOnchainStage env pk grouped gs gf gerr rpc maxG tv =
        Except.ok { success := gs ++ os, failed := gf ++ (of2 ++ syn),
                    total_amount := tv, pending := none }
      ∧ (∀ e ∈ os, e.condition_id.isSome = true)
      ∧ (∀ e ∈ of2, e.condition_id.isSome = true ∨ e.mode = Mode.onchain)
      ∧ ((∃ m, gerr = some m ∧ gf = [] ∧ syn = [syntheticGaslessEntry m])
        ∨ ((gerr = none ∨ gf ≠ []) ∧ syn = [])) := by
  obtain ⟨os, of2, hpart, hos, hof⟩ := onchainPart_spec env pk
    (grouped.filter (fun g => !((gs.filterMap (fun e => e.condition_id)).contains g.1)))
    rpc maxG hpk
  cases gerr with
  | none =>
    refine ⟨os, of2, [], ?_, hos, hof, Or.inr ⟨Or.inl rfl, rfl⟩⟩
    simp only [executeOnchainStage, hpart, List.append_nil]
  | some m =>
    by_cases hgf : gf = []
    · refine ⟨os, of2, [syntheticGaslessEntry m], ?_, hos, hof,
        Or.inl ⟨m, rfl, hgf, rfl⟩⟩
      simp only [executeOnchainStage, hpart, hgf, if_true, List.nil_append,
        List.append_assoc]
    · refine ⟨os, of2, [], ?_, hos, hof, Or.inr ⟨Or.inr hgf, rfl⟩⟩
      simp only [executeOnchainStage, hpart, hgf, if_false, List.append_nil]

theorem gasless_driver_not_valueError (env : GaslessEnv) (pk : String)
    (grouped : List (String × List ClaimablePosition)) (hpk : pyStrip pk ≠ "") :
    _claim_via_gasless_builder env pk grouped ≠ Except.error PathAbort.valueError := by
  obtain ⟨s, hs⟩ := normalize_pk_ok pk hpk
  unfold _claim_via_gasless_builder
  cases hi : env.importOk
  · simp [hi]
  · cases hce : env.constructErr <;> simp [hi, hs, hce]

theorem gasless_driver_ok_entries (env : GaslessEnv) (pk : String)
    (grouped : List (String × List ClaimablePosition)) (gsgf : List Entry × List Entry)
    (h : _claim_via_gasless_builder env pk grouped = Except.ok gsgf) :
    (∀ e ∈ gsgf.1, e.condition_id.isSome = true)
    ∧ (∀ e ∈ gsgf.2, e.condition_id.isSome = true) := by
  unfold _claim_via_gasless_builder at h
  cases hi : env.importOk
  · simp [hi] at h
  · cases hn : _normalize_private_key pk with
    | error e => simp [hi, hn] at h
    | ok s =>
      cases hce : env.constructErr with
      | some m => simp [hi, hn, hce] at h
      | none =>
        simp only [hi, hn, hce, Bool.not_true, Bool.false_eq_true, if_false,
          Except.ok.injEq] at h
        have hent := gaslessLoop_entries_cid env grouped
        constructor
        · intro e he
          rw [← h] at he
          exact hent.1 e he
        · intro e he
          rw [← h] at he
          exact hent.2 e he

theorem executeClaims_spec (env : Env) (pk : String)
    (grouped : List (String × List ClaimablePosition))
    (rpc : Option String) (maxG : Option Int) (tv : Rat) (hpk : pyStrip pk ≠ "") :
    ∃ r, executeClaims env pk grouped rpc maxG tv = Except.ok r
      ∧ r.total_amount = tv ∧ r.pending = none := by
  unfold executeClaims
  cases hdrv : _claim_via_gasless_builder env.gasless pk grouped with
  | error pa =>
    cases pa with
    | valueError =>
      exact absurd hdrv (gasless_driver_not_valueError env.gasless pk grouped hpk)
    | runtime msg =>
      obtain ⟨os, of2, syn, heq, _, _, _⟩ :=
        executeOnchainStage_spec env pk grouped [] [] (some msg) rpc maxG tv hpk
      exact ⟨_, heq, rfl, rfl⟩
  | ok gsgf =>
    obtain ⟨os, of2, syn, heq, _, _, _⟩ :=
      executeOnchainStage_spec env pk grouped gsgf.1 gsgf.2 none rpc maxG tv hpk
    exact ⟨_, heq, rfl, rfl⟩

theorem claim_execute_eq (env : Env) (pk addr : String) (rpc : Option String)
    (maxG : Option Int) (raw : List RawItem)
    (hA : is_valid_evm_address (_normalize_address addr) = true)
    (hP : pyStrip pk ≠ "") (hF : env.fetch = Except.ok raw)
    (hNE : (_collect_redeemable_positions raw).1 ≠ []) :
    claim_all_winnings env pk addr false rpc maxG =
      executeClaims env pk
        (_group_by_condition (_collect_redeemable_positions raw).1)
        rpc maxG (_collect_redeemable_positions raw).2 := by
  obtain ⟨s, hs⟩ := normalize_pk_ok pk hP
  simp [claim_all_winnings, hA, hs, hF, hNE]

/-- C6: the orchestration entry point returns a well-formed report exactly
when the inputs pass validation: an invalid address or an empty (after
stripping) private key raises, and for every other input and every behavior
of the modelled external capabilities (data fetch failure, unavailability of
either settlement path, per-group settlement failures) the failure is
captured inside the returned report. -/
theorem C6_propagation (env : Env) (pk addr : String) (dry : Bool)
    (rpc : Option String) (maxG : Option Int) :
    (∃ r, claim_all_winnings env pk addr dry rpc maxG = Except.ok r)
    ↔ (is_valid_evm_address (_normalize_address addr) = true ∧ pyStrip pk ≠ "") := by
  constructor
  · rintro ⟨r, hr⟩
    by_cases hA : is_valid_evm_address (_normalize_address addr) = true
    · refine ⟨hA, fun hP => ?_⟩
      have hn : _normalize_private_key pk = Except.error () :=
        (normalize_pk_error_iff pk).mpr hP
      simp [claim_all_winnings, hA, hn] at hr
    · simp [claim_all_winnings, hA] at hr
  · rintro ⟨hA, hP⟩
    obtain ⟨s, hs⟩ := normalize_pk_ok pk hP
    cases hF : env.fetch with
    | error msg =>
      refine ⟨{ success := [], failed := [dataApiFailEntry msg],
                total_amount := 0, pending := none }, ?_⟩
      simp [claim_all_winnings, hA, hs, hF]
    | ok raw =>
      by_cases hNE : (_collect_redeemable_positions raw).1 = []
      · refine ⟨{ success := [], failed := [], total_amount := 0, pending := none }, ?_⟩
        simp [claim_all_winnings, hA, hs, hF, hNE]
      · cases dry with
        | false =>
          rw [claim_execute_eq env pk addr rpc maxG raw hA hP hF hNE]
          obtain ⟨r, hr, _, _⟩ := executeClaims_spec env pk
            (_group_by_condition (_collect_redeemable_positions raw).1) rpc maxG
            (_collect_redeemable_positions raw).2 hP
          exact ⟨r, hr⟩
        | true =>
          refine ⟨{ success := [], failed := [],
                    total_amount := (_collect_redeemable_positions raw).2,
                    pending := some ((_collect_redeemable_positions raw).1.map
                      ClaimablePosition.to_summary_dict) }, ?_⟩
          simp [claim_all_winnings, hA, hs, hF, hNE]

/-- C2: whenever the fetch succeeds, the returned total_amount equals the sum
of current_value over exactly the records passing the filter (mapping,
truthy redeemable flag, successful typed conversion, positive quantity);
the equation holds for every behavior of the settlement capabilities, so the
pre-attempt valuation is returned in execute mode no matter how many
settlements succeed or fail. -/
theorem C2_total_amount (env : Env) (pk addr : String) (dry : Bool)
    (rpc : Option String) (maxG : Option Int) (raw : List RawItem) (r : ClaimResult)
    (hA : is_valid_evm_address (_normalize_address addr) = true)
    (hP : pyStrip pk ≠ "") (hF : env.fetch = Except.ok raw)
    (hr : claim_all_winnings env pk addr dry rpc maxG = Except.ok r) :
    r.total_amount =
      ((raw.filterMap recordFilter).map (fun p => p.current_value)).sum := by
  have hc := collect_eq_filterMap raw
  have hc1 : (_collect_redeemable_positions raw).1 = raw.filterMap recordFilter := by
    rw [hc]
  have hc2 : (_collect_redeemable_positions raw).2 =
      ((raw.filterMap recordFilter).map (fun p => p.current_value)).sum := by
    rw [hc]
  obtain ⟨s, hs⟩ := normalize_pk_ok pk hP
  by_cases hNE : (_collect_redeemable_positions raw).1 = []
  · have hempty : raw.filterMap recordFilter = [] := by rw [← hc1]; exact hNE
    have heq : claim_all_winnings env pk addr dry rpc maxG =
        Except.ok { success := [], failed := [], total_amount := 0, pending := none } := by
      simp [claim_all_winnings, hA, hs, hF, hNE]
    rw [heq] at hr
    injection hr with hr
    rw [← hr]
    simp [hempty]
  · cases dry with
    | false =>
      rw [claim_execute_eq env pk addr rpc maxG raw hA hP hF hNE] at hr
      obtain ⟨r2, hr2, htot, _⟩ := executeClaims_spec env pk
        (_group_by_condition (_collect_redeemable_positions raw).1) rpc maxG
        (_collect_redeemable_positions raw).2 hP
      rw [hr2] at hr
      injection hr with hr
      rw [← hr, htot, hc2]
    | true =>
      have heq : claim_all_winnings env pk addr true rpc maxG =
          Except.ok
            { success := [], failed := [],
              total_amount := (_collect_redeemable_positions raw).2,
              pending := some ((_collect_redeemable_positions raw).1.map
                ClaimablePosition.to_summary_dict) } := by
        simp [claim_all_winnings, hA, hs, hF, hNE]
      rw [heq] at hr
      injection hr with hr
      rw [← hr]
      exact hc2

def sampleRecA : RawRecord :=
  { market_question := "q", outcome := "Yes", quantity := some 3, current_value := some 3,
    condition_id := some "M1", conditionId := none, asset := none, redeemable := true,
    negative_risk := false, outcome_index := some 0 }

def sampleRecB : RawRecord :=
  { market_question := "q", outcome := "No", quantity := some 4, current_value := some 4,
    condition_id := some "M1", conditionId := none, asset := none, redeemable := true,
    negative_risk := true, outcome_index := some 1 }

def sampleRaw : List RawItem :=
  [RawItem.dict sampleRecA, RawItem.dict sampleRecB, RawItem.notDict]

def sampleGasless : GaslessEnv :=
  { importOk := true, constructErr := none, redeem := fun _ _ _ => Except.ok "r" }

def sampleGaslessDown : GaslessEnv :=
  { importOk := false, constructErr := none, redeem := fun _ _ _ => Except.ok "r" }

def sampleEnv : Env :=
  { fetch := Except.ok sampleRaw, gasless := sampleGasless, onchain := sampleOnchain }

def sampleEnvFetchFail : Env :=
  { fetch := Except.error "boom", gasless := sampleGasless, onchain := sampleOnchain }

def sampleEnvEmptyFetch : Env :=
  { fetch := Except.ok [], gasless := sampleGasless, onchain := sampleOnchain }

def sampleEnvGaslessDown : Env :=
  { fetch := Except.ok sampleRaw, gasless := sampleGaslessDown, onchain := sampleOnchain }

def sampleAddr : String := "0xaaaaaaaaaaaaaaaaaaaaaaaaaaaaaaaaaaaaaaaa"

/-- Witness for C6: valid inputs produce a report whatever the mode. -/
theorem C6_propagation_witness :
    ∃ r, claim_all_winnings sampleEnv "ab" sampleAddr true none none = Except.ok r :=
  (C6_propagation sampleEnv "ab" sampleAddr true none none).mpr ⟨by decide, by decide⟩

/-- Witness for C2: a 3-value and a 4-value redeemable position plus a
non-dict entry give total 7, returned in execute mode. -/
theorem C2_total_amount_witness :
    ({ success := [gaslessSuccessEntry "M1" "r"], failed := [], total_amount := 7,
       pending := none } : ClaimResult).total_amount =
      ((sampleRaw.filterMap recordFilter).map (fun p => p.current_value)).sum :=
  C2_total_amount sampleEnv "ab" sampleAddr false none none sampleRaw
    { success := [gaslessSuccessEntry "M1" "r"], failed := [], total_amount := 7,
      pending := none }
    (by decide) (by decide) rfl (by with_unfolding_all rfl)

/-- C7 (amended): every report structurally carries success, failed, and
total_amount; the pending key is present exactly when dryRun is true AND the
position fetch succeeded AND at least one record passed filtering — the
fetch-failure and nothing-claimable dry-run reports omit pending. -/
theorem C7_pending_amended (env : Env) (pk addr : String) (dry : Bool)
    (rpc : Option String) (maxG : Option Int) (r : ClaimResult)
    (hr : claim_all_winnings env pk addr dry rpc maxG = Except.ok r) :
    (r.pending.isSome = true ↔
      (dry = true ∧ ∃ raw, env.fetch = Except.ok raw ∧
        (_collect_redeemable_positions raw).1 ≠ [])) := by
  by_cases hA : is_valid_evm_address (_normalize_address addr) = true
  · cases hn : _normalize_private_key pk with
    | error e => simp [claim_all_winnings, hA, hn] at hr
    | ok s =>
      cases hF : env.fetch with
      | error msg =>
        have heq : claim_all_winnings env pk addr dry rpc maxG =
            Except.ok
              { success := [], failed := [dataApiFailEntry msg],
                total_amount := 0, pending := none } := by
          simp [claim_all_winnings, hA, hn, hF]
        rw [heq] at hr
        injection hr with hr
        rw [← hr]
        refine iff_of_false (by simp) ?_
        rintro ⟨hdry, raw, hraw, hne⟩
        exact Except.noConfusion hraw
      | ok raw =>
        by_cases hNE : (_collect_redeemable_positions raw).1 = []
        · have heq : claim_all_winnings env pk addr dry rpc maxG =
              Except.ok
                { success := [], failed := [], total_amount := 0, pending := none } := by
            simp [claim_all_winnings, hA, hn, hF, hNE]
          rw [heq] at hr
          injection hr with hr
          rw [← hr]
          refine iff_of_false (by simp) ?_
          rintro ⟨hdry, raw2, hraw2, hne2⟩
          have hrr : raw = raw2 := by
            injection hraw2 with hh
          rw [← hrr] at hne2
          exact hne2 hNE
        · cases dry with
          | true =>
            have heq : claim_all_winnings env pk addr true rpc maxG =
                Except.ok
                  { success := [], failed := [],
                    total_amount := (_collect_redeemable_positions raw).2,
                    pending := some ((_collect_redeemable_positions raw).1.map
                      ClaimablePosition.to_summary_dict) } := by
              simp [claim_all_winnings, hA, hn, hF, hNE]
            rw [heq] at hr
            injection hr with hr
            rw [← hr]
            exact iff_of_true rfl ⟨rfl, raw, rfl, hNE⟩
          | false =>
            have hP : pyStrip pk ≠ "" := by
              intro hs0
              rw [(normalize_pk_error_iff pk).mpr hs0] at hn
              exact Except.noConfusion hn
            rw [claim_execute_eq env pk addr rpc maxG raw hA hP hF hNE] at hr
            obtain ⟨r2, hr2, _, hpend⟩ := executeClaims_spec env pk
              (_group_by_condition (_collect_redeemable_positions raw).1) rpc maxG
              (_collect_redeemable_positions raw).2 hP
            rw [hr2] at hr
            injection hr with hr
            rw [← hr]
            refine iff_of_false (by simp [hpend]) ?_
            rintro ⟨hdry, _⟩
            exact Bool.noConfusion hdry
  · simp [claim_all_winnings, hA] at hr

/-- Counterexample to C7 as stated: with a successful fetch returning no
records and dryRun true, the source returns at line 477 of src/claim.py the
report without the pending key, so pending is not present whenever dryRun is
true. -/
theorem C7_pending_counterexample :
    claim_all_winnings sampleEnvEmptyFetch "ab" sampleAddr true none none =
      Except.ok { success := [], failed := [], total_amount := 0, pending := none }
    ∧ (none : Option (List SummaryDict)).isSome = false :=
  ⟨by with_unfolding_all rfl, rfl⟩

/-- Witness for the amended C7 on a dry run with claimable positions. -/
theorem C7_pending_amended_witness :
    (({ success := [], failed := [],
        total_amount := (_collect_redeemable_positions sampleRaw).2,
        pending := some ((_collect_redeemable_positions sampleRaw).1.map
          ClaimablePosition.to_summary_dict) } : ClaimResult).pending.isSome = true ↔
      (true = true ∧ ∃ raw, sampleEnv.fetch = Except.ok raw ∧
        (_collect_redeemable_positions raw).1 ≠ [])) :=
  C7_pending_amended sampleEnv "ab" sampleAddr true none none _
    (by with_unfolding_all rfl)

/-- C1 (amended): for a valid address and private key, if the position fetch
succeeds then the dry-run result has empty success and failed lists, and the
whole dry-run result depends only on the fetch outcome — two environments
agreeing on the fetch produce identical results, so no settlement capability
(relayed client, chain connection, gas price, transaction pipeline) can
influence or be exercised by a dry run. When the fetch itself fails, the
source still returns a failed entry (see the counterexample), which is the
one deviation from the claim as stated. -/
theorem C1_dry_run_amended (env : Env) (pk addr : String) (rpc : Option String)
    (maxG : Option Int) (raw : List RawItem)
    (hA : is_valid_evm_address (_normalize_address addr) = true)
    (hP : pyStrip pk ≠ "") (hF : env.fetch = Except.ok raw) :
    ∃ r, claim_all_winnings env pk addr true rpc maxG = Except.ok r
      ∧ r.success = [] ∧ r.failed = []
      ∧ ∀ env' : Env, env'.fetch = env.fetch →
          claim_all_winnings env' pk addr true rpc maxG =
            claim_all_winnings env pk addr true rpc maxG := by
  obtain ⟨s, hs⟩ := normalize_pk_ok pk hP
  have hsame : ∀ env' : Env, env'.fetch = env.fetch →
      claim_all_winnings env' pk addr true rpc maxG =
        claim_all_winnings env pk addr true rpc maxG := by
    intro env' hfe
    have hF' : env'.fetch = Except.ok raw := hfe.trans hF
    by_cases hNE : (_collect_redeemable_positions raw).1 = []
    · have h1 : claim_all_winnings env' pk addr true rpc maxG =
          Except.ok { success := [], failed := [], total_amount := 0, pending := none } := by
        simp [claim_all_winnings, hA, hs, hF', hNE]
      have h2 : claim_all_winnings env pk addr true rpc maxG =
          Except.ok { success := [], failed := [], total_amount := 0, pending := none } := by
        simp [claim_all_winnings, hA, hs, hF, hNE]
      rw [h1, h2]
    · have h1 : claim_all_winnings env' pk addr true rpc maxG =
          Except.ok
            { success := [], failed := [],
              total_amount := (_collect_redeemable_positions raw).2,
              pending := some ((_collect_redeemable_positions raw).1.map
                ClaimablePosition.to_summary_dict) } := by
        simp [claim_all_winnings, hA, hs, hF', hNE]
      have h2 : claim_all_winnings env pk addr true rpc maxG =
          Except.ok
            { success := [], failed := [],
              total_amount := (_collect_redeemable_positions raw).2,
              pending := some ((_collect_redeemable_positions raw).1.map
                ClaimablePosition.to_summary_dict) } := by
        simp [claim_all_winnings, hA, hs, hF, hNE]
      rw [h1, h2]
  by_cases hNE : (_collect_redeemable_positions raw).1 = []
  · refine ⟨{ success := [], failed := [], total_amount := 0, pending := none },
      ?_, rfl, rfl, hsame⟩
    simp [claim_all_winnings, hA, hs, hF, hNE]
  · refine
      ⟨{ success := [], failed := [],
         total_amount := (_collect_redeemable_positions raw).2,
         pending := some ((_collect_redeemable_positions raw).1.map
           ClaimablePosition.to_summary_dict) },
       ?_, rfl, rfl, hsame⟩
    simp [claim_all_winnings, hA, hs, hF, hNE]

/-- Counterexample to C1 as stated: dryRun true with a valid address and
private key but a failing position fetch yields a non-empty failed list
(the data-source entry of src/claim.py lines 463-474), so the dry-run result
does not always have both lists empty. -/
theorem C1_dry_run_counterexample :
    claim_all_winnings sampleEnvFetchFail "ab" sampleAddr true none none =
      Except.ok
        { success := [], failed := [dataApiFailEntry "boom"],
          total_amount := 0, pending := none }
    ∧ [dataApiFailEntry "boom"] ≠ ([] : List Entry) :=
  ⟨by with_unfolding_all rfl, by simp⟩

/-- Witness for the amended C1 on a successful fetch. -/
theorem C1_dry_run_amended_witness :
    ∃ r, claim_all_winnings sampleEnv "ab" sampleAddr true none none = Except.ok r
      ∧ r.success = [] ∧ r.failed = []
      ∧ ∀ env' : Env, env'.fetch = sampleEnv.fetch →
          claim_all_winnings env' "ab" sampleAddr true none none =
            claim_all_winnings sampleEnv "ab" sampleAddr true none none :=
  C1_dry_run_amended sampleEnv "ab" sampleAddr none none sampleRaw
    (by decide) (by decide) rfl

theorem countP_synth_zero (l : List Entry)
    (hl : ∀ e ∈ l, e.condition_id.isSome = true ∨ e.mode = Mode.onchain) :
    l.countP (fun e => decide (e.condition_id = none ∧ e.mode = Mode.gasless)) = 0 := by
  rw [List.countP_eq_zero]
  intro e he hpred
  simp only [decide_eq_true_eq] at hpred
  rcases hl e he with h | h
  · rw [hpred.1] at h
    simp at h
  · rw [hpred.2] at h
    exact Mode.noConfusion h

/-- C5: in execute mode (with claimable positions present), when the relayed
driver fails at construction time the final failed list contains exactly one
relayed-path entry with a null market identifier, and it carries the
unavailability reason; when the relayed driver returns per-group results
(in particular when per-group failures were recorded) no such synthetic
entry appears. -/
theorem C5_synthetic_gasless (env : Env) (pk addr : String) (rpc : Option String)
    (maxG : Option Int) (raw : List RawItem) (r : ClaimResult)
    (hA : is_valid_evm_address (_normalize_address addr) = true)
    (hP : pyStrip pk ≠ "") (hF : env.fetch = Except.ok raw)
    (hNE : (_collect_redeemable_positions raw).1 ≠ [])
    (hr : claim_all_winnings env pk addr false rpc maxG = Except.ok r) :
    (∀ msg, _claim_via_gasless_builder env.gasless pk
        (_group_by_condition (_collect_redeemable_positions raw).1) =
        Except.error (PathAbort.runtime msg) →
      r.failed.countP
        (fun e => decide (e.condition_id = none ∧ e.mode = Mode.gasless)) = 1
      ∧ syntheticGaslessEntry msg ∈ r.failed)
    ∧ (∀ gsgf, _claim_via_gasless_builder env.gasless pk
        (_group_by_condition (_collect_redeemable_positions raw).1) =
        Except.ok gsgf →
      r.failed.countP
        (fun e => decide (e.condition_id = none ∧ e.mode = Mode.gasless)) = 0) := by
  rw [claim_execute_eq env pk addr rpc maxG raw hA hP hF hNE] at hr
  constructor
  · intro msg hdrv
    unfold executeClaims at hr
    rw [hdrv] at hr
    obtain ⟨os, of2, syn, heq, hos, hof, hsyn⟩ := executeOnchainStage_spec env pk
      (_group_by_condition (_collect_redeemable_positions raw).1) [] [] (some msg)
      rpc maxG (_collect_redeemable_positions raw).2 hP
    have hr2 : executeOnchainStage env pk
        (_group_by_condition (_collect_redeemable_positions raw).1) [] [] (some msg)
        rpc maxG (_collect_redeemable_positions raw).2 = Except.ok r := hr
    rw [heq] at hr2
    injection hr2 with hr
    rw [← hr]
    rcases hsyn with ⟨m, hm, hgf, hsy⟩ | ⟨hcase, hsy⟩
    · have hm2 : m = msg := by
        injection hm with hh
        exact hh.symm
      subst hm2
      subst hsy
      constructor
      · simp only [List.nil_append, List.countP_append]
        rw [countP_synth_zero of2 hof]
        simp [List.countP_cons, syntheticGaslessEntry]
      · simp
    · rcases hcase with hc | hc
      · exact absurd hc (by simp)
      · exact absurd rfl hc
  · intro gsgf hdrv
    unfold executeClaims at hr
    rw [hdrv] at hr
    obtain ⟨os, of2, syn, heq, hos, hof, hsyn⟩ := executeOnchainStage_spec env pk
      (_group_by_condition (_collect_redeemable_positions raw).1) gsgf.1 gsgf.2 none
      rpc maxG (_collect_redeemable_positions raw).2 hP
    have hr2 : executeOnchainStage env pk
        (_group_by_condition (_collect_redeemable_positions raw).1) gsgf.1 gsgf.2 none
        rpc maxG (_collect_redeemable_positions raw).2 = Except.ok r := hr
    rw [heq] at hr2
    injection hr2 with hr
    rw [← hr]
    rcases hsyn with ⟨m, hm, _, _⟩ | ⟨_, hsy⟩
    · exact absurd hm (by simp)
    · subst hsy
      have hgf2 := gasless_driver_ok_entries env.gasless pk
        (_group_by_condition (_collect_redeemable_positions raw).1) gsgf hdrv
      simp only [List.countP_append, List.append_nil]
      rw [countP_synth_zero gsgf.2 (fun e he => Or.inl (hgf2.2 e he)),
        countP_synth_zero of2 hof]

def sampleGaslessDownResult : ClaimResult :=
  { success := [],
    failed := [syntheticGaslessEntry "polymarket-apis 未安装，无法使用 gasless/builder 路径。"],
    total_amount := 7, pending := none }

/-- Witness for C5: with the relayed dependency missing and no fallback
endpoint, the report carries exactly one synthetic relayed entry. -/
theorem C5_synthetic_gasless_witness :
    sampleGaslessDownResult.failed.countP
      (fun e => decide (e.condition_id = none ∧ e.mode = Mode.gasless)) = 1
    ∧ syntheticGaslessEntry "polymarket-apis 未安装，无法使用 gasless/builder 路径。" ∈
      sampleGaslessDownResult.failed :=
  (C5_synthetic_gasless sampleEnvGaslessDown "ab" sampleAddr none none sampleRaw
      sampleGaslessDownResult (by decide) (by decide) rfl
      (by with_unfolding_all decide) (by with_unfolding_all rfl)).1
    "polymarket-apis 未安装，无法使用 gasless/builder 路径。" (by with_unfolding_all rfl)
